import Mathlib

/-!
Shallow embedding of the breathing timer and phase-derivation engine
(`src/hooks/use-breathing-timer.ts`) and its reactive state store
(`src/libs/breathing-store.ts`).  JavaScript numbers are modelled as `ℚ`,
JavaScript integers used as counters as `ℤ`.  Pattern metadata strings
(name, description, benefits, accent, icon) do not influence any claimed
behaviour and are omitted from the pattern record.
-/

namespace Breathwork

/-- `BreathingPhaseKey` from `src/libs/breathing-patterns.ts`. -/
inductive BreathingPhaseKey
  | inhale
  | holdIn
  | exhale
  | holdOut
  deriving DecidableEq, Repr

/-- `BreathPhase` from `src/libs/breathing-store.ts`
(`'ready' | 'inhale' | 'hold-in' | 'exhale' | 'hold-out'`). -/
inductive BreathPhase
  | ready
  | inhale
  | holdIn
  | exhale
  | holdOut
  deriving DecidableEq, Repr

/-- `BreathMethod` from `src/libs/breathing-patterns.ts`. -/
inductive BreathMethod
  | nose
  | mouth
  deriving DecidableEq, Repr

/-- `Record<BreathingPhaseKey, number>`: a phase-duration vector. -/
structure Phases where
  inhale : ℚ
  holdIn : ℚ
  exhale : ℚ
  holdOut : ℚ
  deriving DecidableEq, Repr

/-- Indexing `phases[key]`. -/
def Phases.get (p : Phases) : BreathingPhaseKey → ℚ
  | .inhale => p.inhale
  | .holdIn => p.holdIn
  | .exhale => p.exhale
  | .holdOut => p.holdOut

/-- Functional update `{...phases, [key]: value}`. -/
def Phases.set (p : Phases) : BreathingPhaseKey → ℚ → Phases
  | .inhale, v => { p with inhale := v }
  | .holdIn, v => { p with holdIn := v }
  | .exhale, v => { p with exhale := v }
  | .holdOut, v => { p with holdOut := v }

/-- Sum of the four entries of a phase vector. -/
def sumPhases (p : Phases) : ℚ :=
  p.inhale + p.holdIn + p.exhale + p.holdOut

/-- `PhaseInfo` from `src/hooks/use-breathing-timer.ts`. -/
structure PhaseInfo where
  phase : BreathPhase
  elapsed : ℚ
  duration : ℚ
  deriving DecidableEq, Repr

/-- `PHASE_SEQUENCE` from `src/hooks/use-breathing-timer.ts`. -/
def PHASE_SEQUENCE : List (BreathingPhaseKey × BreathPhase) :=
  [(.inhale, .inhale), (.holdIn, .holdIn), (.exhale, .exhale), (.holdOut, .holdOut)]

/-- The `for`-loop inside `getPhaseInfo`: walk the sequence with a cursor;
skip phases with `duration <= 0`; return the phase once `cursor < duration`,
otherwise subtract the duration and continue.  `none` means the loop fell
through (the fallback branch of `getPhaseInfo` is then taken). -/
def phaseLoop (phases : Phases) : List (BreathingPhaseKey × BreathPhase) → ℚ → Option PhaseInfo
  | [], _ => none
  | (key, phase) :: rest, cursor =>
    let duration := phases.get key
    if duration ≤ 0 then phaseLoop phases rest cursor
    else if cursor < duration then some ⟨phase, cursor, duration⟩
    else phaseLoop phases rest (cursor - duration)

/-- `getPhaseInfo` from `src/hooks/use-breathing-timer.ts` (lines 34-65): the
loop's result when it returns, otherwise the fallback
`{phase: 'inhale', elapsed: 0, duration: inhale > 0 ? inhale : 1}`. -/
def getPhaseInfo (time : ℚ) (phases : Phases) : PhaseInfo :=
  (phaseLoop phases PHASE_SEQUENCE time).getD
    ⟨.inhale, 0, if 0 < phases.inhale then phases.inhale else 1⟩

/-- Truncation toward zero, the rounding used by the JavaScript `%` operator. -/
def ratTrunc (q : ℚ) : ℤ :=
  if 0 ≤ q then ⌊q⌋ else ⌈q⌉

/-- JavaScript remainder `x % y`: `x - y * trunc(x / y)`. -/
def jsRem (x y : ℚ) : ℚ :=
  x - y * ratTrunc (x / y)

/-- `clampTime` from `src/hooks/use-breathing-timer.ts` (lines 27-32). -/
def clampTime (value total : ℚ) : ℚ :=
  if total ≤ 0 then 0
  else if value < 0 then 0
  else if total ≤ value then jsRem value total
  else value

/-- A breathing pattern (`BreathingPattern` from `src/libs/breathing-patterns.ts`);
only the fields read by the store logic (`phases`, `methods`) are kept, the
purely presentational string fields are dropped. -/
structure BreathingPattern where
  phases : Phases
  methodInhale : BreathMethod
  methodExhale : BreathMethod
  deriving DecidableEq, Repr

/-- The `inhale`/`exhale` draft-method record of the store. -/
structure DraftMethods where
  inhale : BreathMethod
  exhale : BreathMethod
  deriving DecidableEq, Repr

/-- The `'inhale' | 'exhale'` selector of `updateDraftMethod`. -/
inductive MethodKind
  | inhale
  | exhale
  deriving DecidableEq, Repr

/-- The `coherent` preset. -/
def coherent : BreathingPattern := ⟨⟨5000, 0, 5000, 0⟩, .nose, .nose⟩

/-- The `box` preset. -/
def box : BreathingPattern := ⟨⟨4000, 4000, 4000, 4000⟩, .nose, .nose⟩

/-- The `'4-7-8'` preset. -/
def fourSevenEight : BreathingPattern := ⟨⟨4000, 7000, 8000, 0⟩, .nose, .mouth⟩

/-- The `extended` preset. -/
def extended : BreathingPattern := ⟨⟨4000, 4000, 8000, 0⟩, .nose, .mouth⟩

/-- The `vitality` preset. -/
def vitality : BreathingPattern := ⟨⟨6000, 0, 2000, 0⟩, .nose, .mouth⟩

/-- The `drift` preset. -/
def drift : BreathingPattern := ⟨⟨4000, 7000, 8000, 4000⟩, .nose, .nose⟩

/-- `BREATHING_PATTERNS` as a keyed lookup
(`src/libs/breathing-patterns.ts`, lines 22-140). -/
def BREATHING_PATTERNS (key : String) : Option BreathingPattern :=
  if key = "coherent" then some coherent
  else if key = "box" then some box
  else if key = "4-7-8" then some fourSevenEight
  else if key = "extended" then some extended
  else if key = "vitality" then some vitality
  else if key = "drift" then some drift
  else none

/-- `DEFAULT_PATTERN_KEY` from `src/libs/breathing-store.ts`. -/
def DEFAULT_PATTERN_KEY : String := "coherent"

/-- `BREATHING_PATTERNS[key] ?? BREATHING_PATTERNS[DEFAULT_PATTERN_KEY]`;
the final default is unreachable because the default key is always present. -/
def lookupPattern (key : String) : BreathingPattern :=
  ((BREATHING_PATTERNS key).or (BREATHING_PATTERNS DEFAULT_PATTERN_KEY)).getD coherent

/-- The full store state (`BreathingState` interface minus the action
closures, which are modelled as top-level functions below). -/
structure BreathingState where
  isPlaying : Bool
  currentPhase : BreathPhase
  currentTime : ℚ
  cycleCount : ℤ
  sessionTime : ℚ
  selectedPattern : String
  customPattern : Option BreathingPattern
  draftPhases : Phases
  draftMethods : DraftMethods
  settingsSaved : Bool
  cycleSpeedAdjustment : ℚ
  totalCycleTime : ℚ
  adjustedPhases : Phases
  deriving DecidableEq, Repr

/-- `DerivableSnapshot`: the fields `deriveValues` reads. -/
structure Snapshot where
  selectedPattern : String
  customPattern : Option BreathingPattern
  cycleSpeedAdjustment : ℚ
  draftPhases : Phases
  draftMethods : DraftMethods
  deriving DecidableEq, Repr

/-- `toSnapshot` from `src/libs/breathing-store.ts`. -/
def toSnapshot (s : BreathingState) : Snapshot :=
  ⟨s.selectedPattern, s.customPattern, s.cycleSpeedAdjustment, s.draftPhases, s.draftMethods⟩

/-- `resolvePattern` from `src/libs/breathing-store.ts` (lines 78-101): for the
`"custom"` sentinel use the stored custom pattern if present, else synthesize
one from the drafts; otherwise look up the named preset with fallback. -/
def resolvePattern (s : Snapshot) : BreathingPattern :=
  if s.selectedPattern = "custom" then
    match s.customPattern with
    | some p => p
    | none => ⟨s.draftPhases, s.draftMethods.inhale, s.draftMethods.exhale⟩
  else lookupPattern s.selectedPattern

/-- `Object.values(pattern.phases).reduce((sum, value) => sum + value, 0)`. -/
def baseTotalOf (p : BreathingPattern) : ℚ :=
  p.phases.inhale + p.phases.holdIn + p.phases.exhale + p.phases.holdOut

/-- The derived pair returned by `deriveValues`. -/
structure Derived where
  totalCycleTime : ℚ
  adjustedPhases : Phases
  deriving DecidableEq, Repr

/-- `deriveValues` from `src/libs/breathing-store.ts` (lines 103-123). -/
def deriveValues (s : Snapshot) : Derived :=
  let pattern := resolvePattern s
  let baseTotal := baseTotalOf pattern
  let adjustedTotal := max 500 (baseTotal + s.cycleSpeedAdjustment)
  let scale := if 0 < baseTotal then adjustedTotal / baseTotal else 1
  { totalCycleTime := adjustedTotal
    adjustedPhases :=
      ⟨max 0 (pattern.phases.inhale * scale), max 0 (pattern.phases.holdIn * scale),
       max 0 (pattern.phases.exhale * scale), max 0 (pattern.phases.holdOut * scale)⟩ }

/-- Recompute and merge the derived fields, as the `withDerived` wrapper does
after applying an updater's changes. -/
def applyDerived (s : BreathingState) : BreathingState :=
  let d := deriveValues (toSnapshot s)
  { s with totalCycleTime := d.totalCycleTime, adjustedPhases := d.adjustedPhases }

/-- `play` action: `withDerived(() => ({ isPlaying: true, currentPhase: 'inhale' }))`. -/
def play (s : BreathingState) : BreathingState :=
  applyDerived { s with isPlaying := true, currentPhase := .inhale }

/-- `pause` action: plain `set({ isPlaying: false })`. -/
def pause (s : BreathingState) : BreathingState :=
  { s with isPlaying := false }

/-- `reset` action: `withDerived(() => getInitialBaseState())`.  The initial
base state includes the pattern-selection and draft fields, so all of them are
merged back to their defaults (the default pattern is
`BREATHING_PATTERNS[DEFAULT_PATTERN_KEY]`, i.e. `coherent`). -/
def reset (s : BreathingState) : BreathingState :=
  applyDerived
    { s with
      isPlaying := false, currentPhase := .ready, currentTime := 0,
      cycleCount := 1, sessionTime := 0,
      selectedPattern := DEFAULT_PATTERN_KEY, customPattern := none,
      draftPhases := coherent.phases,
      draftMethods := ⟨coherent.methodInhale, coherent.methodExhale⟩,
      settingsSaved := true, cycleSpeedAdjustment := 0 }

/-- `setCurrentPhase` action: plain `set({ currentPhase: phase })`. -/
def setCurrentPhase (phase : BreathPhase) (s : BreathingState) : BreathingState :=
  { s with currentPhase := phase }

/-- `setCurrentTime` action: plain `set({ currentTime: time })`. -/
def setCurrentTime (time : ℚ) (s : BreathingState) : BreathingState :=
  { s with currentTime := time }

/-- `incrementCycle` action: plain `set({ cycleCount: state.cycleCount + 1 })`. -/
def incrementCycle (s : BreathingState) : BreathingState :=
  { s with cycleCount := s.cycleCount + 1 }

/-- `updateSessionTime` action: plain `set({ sessionTime: state.sessionTime + delta })`. -/
def updateSessionTime (delta : ℚ) (s : BreathingState) : BreathingState :=
  { s with sessionTime := s.sessionTime + delta }

/-- `selectPattern` action (derives). -/
def selectPattern (patternKey : String) (s : BreathingState) : BreathingState :=
  let preset := lookupPattern patternKey
  applyDerived
    { s with
      selectedPattern := patternKey, customPattern := none,
      draftPhases := preset.phases,
      draftMethods := ⟨preset.methodInhale, preset.methodExhale⟩,
      settingsSaved := true, cycleSpeedAdjustment := 0 }

/-- `setCustomPattern` action (derives). -/
def setCustomPattern (pattern : BreathingPattern) (s : BreathingState) : BreathingState :=
  applyDerived
    { s with
      selectedPattern := "custom", customPattern := some pattern,
      draftPhases := pattern.phases,
      draftMethods := ⟨pattern.methodInhale, pattern.methodExhale⟩,
      settingsSaved := true }

/-- `updateDraftPhase` action: plain set, clamps to `[0, 10000]`, does NOT
recompute the derived values. -/
def updateDraftPhase (phase : BreathingPhaseKey) (value : ℚ) (s : BreathingState) : BreathingState :=
  { s with
    draftPhases := s.draftPhases.set phase (max 0 (min 10000 value)),
    settingsSaved := false }

/-- `updateDraftMethod` action: plain set, does NOT recompute derived values. -/
def updateDraftMethod (kind : MethodKind) (method : BreathMethod) (s : BreathingState) : BreathingState :=
  { s with
    draftMethods :=
      match kind with
      | .inhale => { s.draftMethods with inhale := method }
      | .exhale => { s.draftMethods with exhale := method },
    settingsSaved := false }

/-- `saveSettings` action (derives): materialize the drafts as the custom pattern. -/
def saveSettings (s : BreathingState) : BreathingState :=
  applyDerived
    { s with
      selectedPattern := "custom",
      customPattern := some ⟨s.draftPhases, s.draftMethods.inhale, s.draftMethods.exhale⟩,
      settingsSaved := true }

/-- `adjustCycleSpeed` action (derives), lines 321-336 of the store. -/
def adjustCycleSpeed (delta : ℚ) (s : BreathingState) : BreathingState :=
  let pattern := resolvePattern (toSnapshot s)
  let baseTotal := baseTotalOf pattern
  let minAdjustment := -baseTotal + 500
  applyDerived
    { s with cycleSpeedAdjustment := max minAdjustment (s.cycleSpeedAdjustment + delta) }

/-- `adjustPhase` action (derives): clamp the draft, switch to `"custom"`. -/
def adjustPhase (phase : BreathingPhaseKey) (delta : ℚ) (s : BreathingState) : BreathingState :=
  applyDerived
    { s with
      draftPhases := s.draftPhases.set phase (max 0 (min 10000 (s.draftPhases.get phase + delta))),
      selectedPattern := "custom", settingsSaved := false }

/-- `getInitialBaseState` (lines 125-159), with placeholder derived fields;
the store constructor immediately overwrites them via `deriveValues`. -/
def getInitialBaseState : BreathingState :=
  { isPlaying := false, currentPhase := .ready, currentTime := 0,
    cycleCount := 1, sessionTime := 0,
    selectedPattern := DEFAULT_PATTERN_KEY, customPattern := none,
    draftPhases := coherent.phases,
    draftMethods := ⟨coherent.methodInhale, coherent.methodExhale⟩,
    settingsSaved := true, cycleSpeedAdjustment := 0,
    totalCycleTime := 0, adjustedPhases := ⟨0, 0, 0, 0⟩ }

/-- The store's initial state: `{...base, ...deriveValues(toSnapshot(base))}`. -/
def initialState : BreathingState :=
  applyDerived getInitialBaseState

/-- One constructor per store mutation, with its arguments. -/
inductive Action
  | play
  | pause
  | reset
  | setCurrentPhase (phase : BreathPhase)
  | setCurrentTime (time : ℚ)
  | incrementCycle
  | updateSessionTime (delta : ℚ)
  | selectPattern (patternKey : String)
  | setCustomPattern (pattern : BreathingPattern)
  | updateDraftPhase (phase : BreathingPhaseKey) (value : ℚ)
  | updateDraftMethod (kind : MethodKind) (method : BreathMethod)
  | saveSettings
  | adjustCycleSpeed (delta : ℚ)
  | adjustPhase (phase : BreathingPhaseKey) (delta : ℚ)

/-- Dispatch an action to the corresponding store mutation. -/
def step : Action → BreathingState → BreathingState
  | .play => play
  | .pause => pause
  | .reset => reset
  | .setCurrentPhase p => setCurrentPhase p
  | .setCurrentTime t => setCurrentTime t
  | .incrementCycle => incrementCycle
  | .updateSessionTime d => updateSessionTime d
  | .selectPattern k => selectPattern k
  | .setCustomPattern p => setCustomPattern p
  | .updateDraftPhase k v => updateDraftPhase k v
  | .updateDraftMethod k m => updateDraftMethod k m
  | .saveSettings => saveSettings
  | .adjustCycleSpeed d => adjustCycleSpeed d
  | .adjustPhase k d => adjustPhase k d

/-- Run a list of actions from the initial state. -/
def run (l : List Action) : BreathingState :=
  l.foldl (fun s a => step a s) initialState

/-- A store state reachable by some sequence of mutations. -/
def Reachable (s : BreathingState) : Prop :=
  ∃ l : List Action, run l = s

/-- The timer hook's mutable refs (`timeRef`, `totalRef`, `phasesRef`,
`lastTimestampRef`) from `useBreathingTimer`. -/
structure TimerState where
  time : ℚ
  total : ℚ
  phases : Phases
  lastTimestamp : Option ℚ
  deriving DecidableEq, Repr

/-- The `while (timeRef.current >= total)` loop of `tick` (lines 145-149):
returns the wrapped time and the number of completed cycles.  The loop only
runs in a context where `total > 0` (the tick returns early otherwise); the
`0 < T` component of the guard makes the recursion total in Lean. -/
def spin (T x : ℚ) : ℚ × ℕ :=
  if h : 0 < T ∧ T ≤ x then
    let r := spin T (x - T)
    (r.1, r.2 + 1)
  else (x, 0)
termination_by (⌊x / T⌋).toNat
decreasing_by
  obtain ⟨hT, hTx⟩ := h
  have h1 : (x - T) / T = x / T - 1 := by field_simp
  have h2 : ⌊(x - T) / T⌋ = ⌊x / T⌋ - 1 := by rw [h1, Int.floor_sub_one]
  have h3 : (1 : ℤ) ≤ ⌊x / T⌋ := by
    have hd : (1 : ℚ) ≤ x / T := (one_le_div hT).mpr hTx
    exact_mod_cast Int.le_floor.mpr (by exact_mod_cast hd)
  omega

/-- The `tick` effect event of `useBreathingTimer` (lines 122-165), acting on
the timer refs and the store snapshot captured at entry.  Note the phase
comparison at the end reads `store.currentPhase` from the snapshot captured at
the top of the tick, exactly as the source closure does. -/
def tick (timestamp : ℚ) (ts : TimerState) (store : BreathingState) :
    TimerState × BreathingState :=
  if store.isPlaying = false then ({ ts with lastTimestamp := none }, store)
  else
    match ts.lastTimestamp with
    | none => ({ ts with lastTimestamp := some timestamp }, store)
    | some last =>
      let difference := timestamp - last
      let delta := if 0 < difference then difference else 0
      let ts1 : TimerState := { ts with lastTimestamp := some timestamp }
      if ts1.total ≤ 0 then (ts1, store)
      else
        let r := spin ts1.total (ts1.time + delta)
        let tNew := r.1
        let completedCycles := r.2
        let store1 :=
          if 0 < completedCycles then
            setCurrentPhase .inhale (incrementCycle^[completedCycles] store)
          else store
        let store2 := setCurrentTime tNew (updateSessionTime delta store1)
        let info := getPhaseInfo tNew ts1.phases
        let store3 :=
          if store.currentPhase ≠ info.phase then setCurrentPhase info.phase store2
          else store2
        ({ ts1 with time := tNew }, store3)

/-- The `useEffect` on `totalCycleTime` (lines 113-116): store the new total
and re-clamp the local elapsed time. -/
def onTotalCycleTimeChange (newTotal : ℚ) (ts : TimerState) : TimerState :=
  { ts with total := newTotal, time := clampTime ts.time newTotal }

attribute [ext] Phases PhaseInfo BreathingState TimerState Snapshot Derived

lemma spin_eq_aux (T : ℚ) (hT : 0 < T) :
    ∀ n x, 0 ≤ x → (⌊x / T⌋).toNat = n → spin T x = (x - T * ⌊x / T⌋, n) := by
  intro n
  induction n with
  | zero =>
    intro x hx h0
    have hge : 0 ≤ ⌊x / T⌋ := Int.floor_nonneg.mpr (div_nonneg hx hT.le)
    have hfl : ⌊x / T⌋ = 0 := by omega
    have hlt : x / T < 1 := by
      have := Int.lt_floor_add_one (x / T)
      rw [hfl] at this
      simpa using this
    have hxT : x < T := by
      have := (div_lt_one hT).mp hlt
      linarith
    rw [spin, dif_neg (by push_neg; intro; linarith)]
    simp [hfl]
  | succ n ih =>
    intro x hx h
    have h3 : 1 ≤ ⌊x / T⌋ := by omega
    have hTx : T ≤ x := by
      have h4 : (1 : ℚ) ≤ x / T := by exact_mod_cast Int.le_floor.mp h3
      exact (one_le_div hT).mp h4
    have hfl : ⌊(x - T) / T⌋ = ⌊x / T⌋ - 1 := by
      have h1 : (x - T) / T = x / T - 1 := by field_simp
      rw [h1, Int.floor_sub_one]
    have ihx := ih (x - T) (by linarith) (by rw [hfl]; omega)
    rw [spin, dif_pos ⟨hT, hTx⟩]
    simp only [ihx, hfl, Prod.mk.injEq]
    refine ⟨by push_cast; ring, trivial⟩

/-- The while-loop computes floored division and remainder: for a positive
total and non-negative elapsed value, `spin T x` is
`(x mod T, floor (x / T))`. -/
lemma spin_eq (T x : ℚ) (hT : 0 < T) (hx : 0 ≤ x) :
    spin T x = (x - T * ⌊x / T⌋, (⌊x / T⌋).toNat) :=
  spin_eq_aux T hT _ x hx rfl

lemma iterate_incrementCycle (k : ℕ) (s : BreathingState) :
    incrementCycle^[k] s = { s with cycleCount := s.cycleCount + k } := by
  induction k with
  | zero => simp
  | succ n ih =>
    rw [Function.iterate_succ_apply', ih]
    simp only [incrementCycle]
    ext <;> simp [add_assoc]

/-- Full characterization of a tick taken while playing with a recorded last
timestamp and a positive total: the clamped delta is added, the time wraps by
floored division, the cycle count grows by the number of wraps, the session
time grows by the delta, and the phase is corrected against the phase derived
from the wrapped time (compared with the phase captured at tick entry). -/
lemma tick_playing (timestamp last delta x : ℚ) (ts : TimerState) (store : BreathingState)
    (hp : store.isPlaying = true) (hl : ts.lastTimestamp = some last)
    (hT : 0 < ts.total) (ht : 0 ≤ ts.time)
    (hdelta : delta = if 0 < timestamp - last then timestamp - last else 0)
    (hx : x = ts.time + delta) :
    tick timestamp ts store =
      ({ ts with lastTimestamp := some timestamp, time := x - ts.total * ⌊x / ts.total⌋ },
       { store with
         currentPhase :=
           if store.currentPhase ≠ (getPhaseInfo (x - ts.total * ⌊x / ts.total⌋) ts.phases).phase
           then (getPhaseInfo (x - ts.total * ⌊x / ts.total⌋) ts.phases).phase
           else if 0 < (⌊x / ts.total⌋).toNat then BreathPhase.inhale else store.currentPhase,
         currentTime := x - ts.total * ⌊x / ts.total⌋,
         cycleCount := store.cycleCount + (⌊x / ts.total⌋).toNat,
         sessionTime := store.sessionTime + delta }) := by
  have hd0 : 0 ≤ delta := by
    rw [hdelta]
    split_ifs with h
    · linarith
    · exact le_refl 0
  have hx0 : 0 ≤ x := by rw [hx]; linarith
  simp only [tick, hp, hl]
  rw [if_neg (by simp)]
  simp only [← hdelta]
  rw [if_neg (not_le.mpr hT)]
  simp only [← hx]
  rw [spin_eq ts.total x hT hx0]
  simp only [setCurrentTime, updateSessionTime, setCurrentPhase, iterate_incrementCycle]
  split_ifs <;> ext <;> first
    | rfl
    | exact hp
    | (dsimp only; omega)

/-- When the resolved base pattern has non-negative phases with a positive
sum, the derived adjusted phases sum exactly to the derived total. -/
lemma deriveValues_sum (snap : Snapshot)
    (h1 : 0 ≤ (resolvePattern snap).phases.inhale)
    (h2 : 0 ≤ (resolvePattern snap).phases.holdIn)
    (h3 : 0 ≤ (resolvePattern snap).phases.exhale)
    (h4 : 0 ≤ (resolvePattern snap).phases.holdOut)
    (hb : 0 < baseTotalOf (resolvePattern snap)) :
    sumPhases (deriveValues snap).adjustedPhases = (deriveValues snap).totalCycleTime := by
  simp only [deriveValues, sumPhases]
  rw [if_pos hb]
  set p := resolvePattern snap with hpdef
  set b := baseTotalOf p with hbdef
  set A := max 500 (b + snap.cycleSpeedAdjustment) with hAdef
  have hA0 : (0 : ℚ) < A := lt_of_lt_of_le (by norm_num) (le_max_left _ _)
  have hs : (0 : ℚ) ≤ A / b := le_of_lt (div_pos hA0 hb)
  rw [max_eq_right (mul_nonneg h1 hs), max_eq_right (mul_nonneg h2 hs),
    max_eq_right (mul_nonneg h3 hs), max_eq_right (mul_nonneg h4 hs)]
  have hsum : p.phases.inhale + p.phases.holdIn + p.phases.exhale + p.phases.holdOut = b := by
    rw [hbdef]; rfl
  have key : p.phases.inhale * (A / b) + p.phases.holdIn * (A / b) +
      p.phases.exhale * (A / b) + p.phases.holdOut * (A / b) = b * (A / b) := by
    rw [← hsum]; ring
  rw [key, mul_div_cancel₀ A (ne_of_gt hb)]

/-- The derived fields of a state are the output of `deriveValues` on some
snapshot (possibly an earlier one, when drafts were edited without a
re-derivation). -/
def DerivedOk (s : BreathingState) : Prop :=
  ∃ snap : Snapshot,
    s.totalCycleTime = (deriveValues snap).totalCycleTime ∧
    s.adjustedPhases = (deriveValues snap).adjustedPhases

lemma derivedOk_step (a : Action) (s : BreathingState) (h : DerivedOk s) :
    DerivedOk (step a s) := by
  cases a <;>
    first
      | exact ⟨_, rfl, rfl⟩
      | exact h

lemma reachable_derivedOk (s : BreathingState) (h : Reachable s) : DerivedOk s := by
  obtain ⟨l, rfl⟩ := h
  suffices H : ∀ (l2 : List Action) (s0 : BreathingState),
      DerivedOk s0 → DerivedOk (l2.foldl (fun st a => step a st) s0) by
    exact H l initialState ⟨toSnapshot getInitialBaseState, rfl, rfl⟩
  intro l2
  induction l2 with
  | nil => intro s0 h0; exact h0
  | cons a t ih => intro s0 h0; exact ih _ (derivedOk_step a s0 h0)

/-- Any phase returned from inside the walk loop has a positive duration,
because the loop skips every phase whose duration is `≤ 0`. -/
lemma phaseLoop_duration_pos (phases : Phases) :
    ∀ (seq : List (BreathingPhaseKey × BreathPhase)) (cursor : ℚ) (info : PhaseInfo),
      phaseLoop phases seq cursor = some info → 0 < info.duration := by
  intro seq
  induction seq with
  | nil => intro cursor info h; simp [phaseLoop] at h
  | cons head tail ih =>
    intro cursor info h
    obtain ⟨key, phase⟩ := head
    simp only [phaseLoop] at h
    split_ifs at h with hd hc
    · exact ih _ _ h
    · obtain rfl := Option.some.inj h
      exact lt_of_not_le hd
    · exact ih _ _ h

/-- C9: for every input time (negative, in-range or past the cycle total) and
every phase-duration map with non-negative entries, `getPhaseInfo` returns a
strictly positive duration — a phase's own positive duration, or the fallback
`inhale`-or-`1` duration — so the `phaseProgress` division by the returned
duration can never be a division by zero. -/
theorem getPhaseInfo_duration_pos (time : ℚ) (phases : Phases)
    (h : 0 ≤ phases.inhale ∧ 0 ≤ phases.holdIn ∧ 0 ≤ phases.exhale ∧ 0 ≤ phases.holdOut) :
    0 < (getPhaseInfo time phases).duration := by
  unfold getPhaseInfo
  cases hl : phaseLoop phases PHASE_SEQUENCE time with
  | some info =>
    rw [Option.getD_some]
    exact phaseLoop_duration_pos phases _ _ _ hl
  | none =>
    rw [Option.getD_none]
    dsimp only
    split_ifs with hpos
    · exact hpos
    · norm_num

/-- Witness for C9 at a concrete input: the all-zero vector and a negative
time take the fallback branch and still give a positive duration. -/
theorem getPhaseInfo_duration_pos_witness :
    0 < (getPhaseInfo (-5) ⟨0, 0, 0, 0⟩).duration :=
  getPhaseInfo_duration_pos (-5) ⟨0, 0, 0, 0⟩ (by norm_num)

/-- C6: `adjustCycleSpeed(delta)` floors the speed adjustment at
`-(baseTotal - 500)` for the currently active pattern, and the re-derived
`totalCycleTime` never drops below 500ms. -/
theorem adjustCycleSpeed_spec (s : BreathingState) (delta : ℚ) :
    (adjustCycleSpeed delta s).cycleSpeedAdjustment =
      max (-(baseTotalOf (resolvePattern (toSnapshot s)) - 500))
        (s.cycleSpeedAdjustment + delta) ∧
    500 ≤ (adjustCycleSpeed delta s).totalCycleTime := by
  constructor
  · have h : -(baseTotalOf (resolvePattern (toSnapshot s)) - 500) =
        -baseTotalOf (resolvePattern (toSnapshot s)) + 500 := by ring
    rw [h]
    rfl
  · exact le_max_left 500 _

/-- C8 (amended): `play()` sets `isPlaying` to `true` and forces
`currentPhase` to `'inhale'` unconditionally — it does not inspect the phase
durations — and it does not reset `currentTime`. -/
theorem play_spec (s : BreathingState) :
    (play s).isPlaying = true ∧ (play s).currentPhase = BreathPhase.inhale ∧
    (play s).currentTime = s.currentTime :=
  ⟨rfl, rfl, rfl⟩

/-- Counterexample to C8 as stated: with a custom pattern whose inhale and
hold-in durations are 0 and whose exhale duration is positive, the first
phase with a positive duration is `exhale`, yet `play` still sets
`currentPhase` to `inhale`. -/
theorem play_counterexample :
    (play (run [Action.updateDraftPhase .inhale 0, Action.saveSettings])).currentPhase =
      BreathPhase.inhale ∧
    (play (run [Action.updateDraftPhase .inhale 0, Action.saveSettings])).adjustedPhases.inhale = 0 ∧
    (play (run [Action.updateDraftPhase .inhale 0, Action.saveSettings])).adjustedPhases.holdIn = 0 ∧
    0 < (play (run [Action.updateDraftPhase .inhale 0, Action.saveSettings])).adjustedPhases.exhale := by
  norm_num [run, step, play, saveSettings, updateDraftPhase, applyDerived, deriveValues,
    toSnapshot, resolvePattern, lookupPattern, BREATHING_PATTERNS, DEFAULT_PATTERN_KEY,
    baseTotalOf, coherent, initialState, getInitialBaseState, Phases.set, max_def, min_def]

/-- C7 (amended): `reset()` restores `isPlaying=false`, `currentPhase='ready'`,
`currentTime=0`, `cycleCount=1`, `sessionTime=0`, `speedAdjustment=0`, but it
also resets the pattern selection and the drafts: it merges the full initial
base state, so `selectedPattern` becomes the default key, `customPattern` is
cleared, and the drafts return to the default pattern's phases and methods;
the derived values are recomputed for the default pattern. -/
theorem reset_spec (s : BreathingState) :
    (reset s).isPlaying = false ∧ (reset s).currentPhase = BreathPhase.ready ∧
    (reset s).currentTime = 0 ∧ (reset s).cycleCount = 1 ∧ (reset s).sessionTime = 0 ∧
    (reset s).cycleSpeedAdjustment = 0 ∧
    (reset s).selectedPattern = DEFAULT_PATTERN_KEY ∧ (reset s).customPattern = none ∧
    (reset s).draftPhases = coherent.phases ∧
    (reset s).draftMethods = ⟨coherent.methodInhale, coherent.methodExhale⟩ ∧
    (reset s).settingsSaved = true ∧
    (reset s).totalCycleTime = 10000 ∧ (reset s).adjustedPhases = coherent.phases := by
  refine ⟨rfl, rfl, rfl, rfl, rfl, rfl, rfl, rfl, rfl, rfl, rfl, ?_, ?_⟩
  · norm_num [reset, applyDerived, deriveValues, toSnapshot, resolvePattern, lookupPattern,
      BREATHING_PATTERNS, DEFAULT_PATTERN_KEY, baseTotalOf, coherent, max_def]
  · ext <;>
      norm_num [reset, applyDerived, deriveValues, toSnapshot, resolvePattern, lookupPattern,
        BREATHING_PATTERNS, DEFAULT_PATTERN_KEY, baseTotalOf, coherent, max_def]

/-- Counterexample to C7 as stated: selecting the `box` pattern and then
calling `reset` changes `selectedPattern` back to the default, so the pattern
selection is not left unchanged by `reset`. -/
theorem reset_counterexample :
    (reset (run [Action.selectPattern "box"])).selectedPattern ≠
      (run [Action.selectPattern "box"]).selectedPattern := by
  norm_num [run, step, reset, selectPattern, applyDerived, deriveValues, toSnapshot,
    resolvePattern, lookupPattern, BREATHING_PATTERNS, DEFAULT_PATTERN_KEY, baseTotalOf,
    coherent, box, initialState, getInitialBaseState, max_def]
  decide

set_option maxHeartbeats 2000000 in
/-- C1 (amended): `getPhaseInfo` is the phase-walk: for non-negative time and
non-negative durations it returns the first phase in the fixed order
`inhale, hold-in, exhale, hold-out` whose positive duration covers the time,
with `elapsed` equal to the time minus the sum of the preceding durations
(phases with duration 0 contribute nothing and are skipped) and `duration`
equal to that phase's duration; when the time exhausts all phases it falls
back to `inhale` with `elapsed 0` and duration `phases.inhale` when that is
positive and `1` otherwise (not `max(1, phases.inhale)`); and for any time
below the sum of the durations the loop returns a phase, so the fallback is
never taken. -/
theorem getPhaseInfo_walk (time : ℚ) (p : Phases)
    (hn : 0 ≤ p.inhale ∧ 0 ≤ p.holdIn ∧ 0 ≤ p.exhale ∧ 0 ≤ p.holdOut)
    (ht : 0 ≤ time) :
    getPhaseInfo time p =
      (if 0 < p.inhale ∧ time < p.inhale then ⟨.inhale, time, p.inhale⟩
       else if 0 < p.holdIn ∧ time < p.inhale + p.holdIn then
         ⟨.holdIn, time - p.inhale, p.holdIn⟩
       else if 0 < p.exhale ∧ time < p.inhale + p.holdIn + p.exhale then
         ⟨.exhale, time - (p.inhale + p.holdIn), p.exhale⟩
       else if 0 < p.holdOut ∧ time < p.inhale + p.holdIn + p.exhale + p.holdOut then
         ⟨.holdOut, time - (p.inhale + p.holdIn + p.exhale), p.holdOut⟩
       else ⟨.inhale, 0, if 0 < p.inhale then p.inhale else 1⟩) ∧
    (time < p.inhale + p.holdIn + p.exhale + p.holdOut →
      (phaseLoop p PHASE_SEQUENCE time).isSome = true) := by
  obtain ⟨h1, h2, h3, h4⟩ := hn
  constructor
  · simp only [getPhaseInfo, PHASE_SEQUENCE, phaseLoop, Phases.get]
    split_ifs <;> simp only [Option.getD_some, Option.getD_none] <;>
      first
        | rfl
        | (apply PhaseInfo.ext <;> dsimp only <;> first | rfl | linarith)
        | (exfalso; first
            | linarith
            | (simp_all only [not_and, not_lt, not_le, true_implies] <;> linarith))
  · intro hlt
    simp only [PHASE_SEQUENCE, phaseLoop, Phases.get]
    split_ifs <;> first
      | rfl
      | (exfalso; linarith)

/-- Witness for C1's amended walk at the box pattern, 6000ms into the cycle:
the walk lands in `hold-in` with 2000ms elapsed of 4000ms, and the loop does
return a phase. -/
theorem getPhaseInfo_walk_witness :
    getPhaseInfo 6000 ⟨4000, 4000, 4000, 4000⟩ = ⟨.holdIn, 2000, 4000⟩ ∧
    (phaseLoop ⟨4000, 4000, 4000, 4000⟩ PHASE_SEQUENCE 6000).isSome = true := by
  have h := getPhaseInfo_walk 6000 ⟨4000, 4000, 4000, 4000⟩ (by norm_num) (by norm_num)
  constructor
  · rw [h.1]
    norm_num
  · exact h.2 (by norm_num)

/-- Counterexample to C1 as stated: with an inhale duration of `1/2` (all
others 0) at time 1 the walk exhausts all phases and the fallback returns
duration `1/2`, not `max(1, phases.inhale) = 1` as the claim says. -/
theorem getPhaseInfo_fallback_counterexample :
    (getPhaseInfo 1 ⟨1/2, 0, 0, 0⟩).duration ≠
      max 1 ((⟨1/2, 0, 0, 0⟩ : Phases).inhale) := by
  norm_num [getPhaseInfo, phaseLoop, PHASE_SEQUENCE, Phases.get, max_def]

/-- C5: when the total cycle time changes, the timer re-clamps its local
elapsed time: a positive new total at or below the elapsed time wraps the
elapsed time by modulo into `[0, newTotal)`; a negative elapsed time or a
non-positive new total resets it to 0; for any non-negative elapsed time and
positive new total the result lies in `[0, newTotal)`. -/
theorem onTotalCycleTimeChange_spec (ts : TimerState) (newTotal : ℚ) :
    (onTotalCycleTimeChange newTotal ts).total = newTotal ∧
    (newTotal ≤ 0 → (onTotalCycleTimeChange newTotal ts).time = 0) ∧
    (ts.time < 0 → (onTotalCycleTimeChange newTotal ts).time = 0) ∧
    (0 < newTotal → newTotal ≤ ts.time →
      (onTotalCycleTimeChange newTotal ts).time =
        ts.time - newTotal * ⌊ts.time / newTotal⌋) ∧
    (0 < newTotal → 0 ≤ ts.time →
      0 ≤ (onTotalCycleTimeChange newTotal ts).time ∧
      (onTotalCycleTimeChange newTotal ts).time < newTotal) := by
  refine ⟨rfl, ?_, ?_, ?_, ?_⟩
  · intro h
    simp only [onTotalCycleTimeChange, clampTime, if_pos h]
  · intro h
    simp only [onTotalCycleTimeChange, clampTime]
    split_ifs <;> first | rfl | linarith
  · intro h1 h2
    have hv0 : (0 : ℚ) ≤ ts.time := le_trans h1.le h2
    simp only [onTotalCycleTimeChange, clampTime, jsRem, ratTrunc]
    rw [if_neg (not_le.mpr h1), if_neg (not_lt.mpr hv0), if_pos h2,
      if_pos (div_nonneg hv0 h1.le)]
  · intro h1 h2
    simp only [onTotalCycleTimeChange, clampTime, jsRem, ratTrunc]
    rw [if_neg (not_le.mpr h1), if_neg (not_lt.mpr h2)]
    by_cases h3 : newTotal ≤ ts.time
    · rw [if_pos h3, if_pos (div_nonneg h2 h1.le)]
      have hlow := Int.sub_floor_div_mul_nonneg ts.time h1
      have hhigh := Int.sub_floor_div_mul_lt ts.time h1
      constructor
      · calc (0 : ℚ) ≤ ts.time - ⌊ts.time / newTotal⌋ * newTotal := hlow
          _ = ts.time - newTotal * ⌊ts.time / newTotal⌋ := by ring
      · calc ts.time - newTotal * ⌊ts.time / newTotal⌋
            = ts.time - ⌊ts.time / newTotal⌋ * newTotal := by ring
          _ < newTotal := hhigh
    · rw [if_neg h3]
      exact ⟨h2, not_le.mp h3⟩

/-- Witness for C5 at the shrink scenario of the tests: elapsed 6000 with a
new total of 500 wraps to `6000 mod 500 = 0`, inside `[0, 500)`. -/
theorem onTotalCycleTimeChange_spec_witness :
    (onTotalCycleTimeChange 500 ⟨6000, 16000, ⟨4000, 4000, 4000, 4000⟩, none⟩).time =
      6000 - 500 * ⌊(6000 : ℚ) / 500⌋ ∧
    0 ≤ (onTotalCycleTimeChange 500 ⟨6000, 16000, ⟨4000, 4000, 4000, 4000⟩, none⟩).time ∧
    (onTotalCycleTimeChange 500 ⟨6000, 16000, ⟨4000, 4000, 4000, 4000⟩, none⟩).time < 500 := by
  have h := onTotalCycleTimeChange_spec ⟨6000, 16000, ⟨4000, 4000, 4000, 4000⟩, none⟩ 500
  exact ⟨h.2.2.2.1 (by norm_num) (by norm_num),
    (h.2.2.2.2 (by norm_num) (by norm_num)).1,
    (h.2.2.2.2 (by norm_num) (by norm_num)).2⟩

/-- C10: the timer-path setters are single-field updates: `setCurrentPhase`
writes only `currentPhase`, `setCurrentTime` only `currentTime`,
`incrementCycle` adds exactly 1 to `cycleCount`, `updateSessionTime` adds its
delta to `sessionTime` with no clamping, and `pause` flips only `isPlaying`;
none of them touch the derived `totalCycleTime` / `adjustedPhases` or any
other field. -/
theorem timer_setters_frame (s : BreathingState) (p : BreathPhase) (t d : ℚ) :
    (pause s = { s with isPlaying := false }) ∧
    (setCurrentPhase p s = { s with currentPhase := p }) ∧
    (setCurrentTime t s = { s with currentTime := t }) ∧
    (incrementCycle s = { s with cycleCount := s.cycleCount + 1 }) ∧
    (updateSessionTime d s = { s with sessionTime := s.sessionTime + d }) ∧
    (pause s).totalCycleTime = s.totalCycleTime ∧
    (pause s).adjustedPhases = s.adjustedPhases ∧
    (setCurrentPhase p s).totalCycleTime = s.totalCycleTime ∧
    (setCurrentPhase p s).adjustedPhases = s.adjustedPhases ∧
    (setCurrentTime t s).totalCycleTime = s.totalCycleTime ∧
    (setCurrentTime t s).adjustedPhases = s.adjustedPhases ∧
    (incrementCycle s).totalCycleTime = s.totalCycleTime ∧
    (incrementCycle s).adjustedPhases = s.adjustedPhases ∧
    (updateSessionTime d s).totalCycleTime = s.totalCycleTime ∧
    (updateSessionTime d s).adjustedPhases = s.adjustedPhases :=
  ⟨rfl, rfl, rfl, rfl, rfl, rfl, rfl, rfl, rfl, rfl, rfl, rfl, rfl, rfl, rfl⟩

/-- C2 (amended): in every reachable state the stored derived pair
(`totalCycleTime`, `adjustedPhases`) is the output of `deriveValues` on some
snapshot — the current one after a deriving mutation, possibly an earlier one
after draft-only edits — and whenever that snapshot's resolved pattern has
non-negative phases with a positive base total, the four adjusted phases sum
exactly to `totalCycleTime`.  The sum invariant fails when the resolved base
total is 0: each adjusted phase is then 0 while `totalCycleTime` is floored
at 500. -/
theorem reachable_sum_invariant (s : BreathingState) (h : Reachable s) :
    ∃ snap : Snapshot,
      s.totalCycleTime = (deriveValues snap).totalCycleTime ∧
      s.adjustedPhases = (deriveValues snap).adjustedPhases ∧
      (0 ≤ (resolvePattern snap).phases.inhale →
        0 ≤ (resolvePattern snap).phases.holdIn →
        0 ≤ (resolvePattern snap).phases.exhale →
        0 ≤ (resolvePattern snap).phases.holdOut →
        0 < baseTotalOf (resolvePattern snap) →
        sumPhases s.adjustedPhases = s.totalCycleTime) := by
  obtain ⟨snap, hT, hA⟩ := reachable_derivedOk s h
  refine ⟨snap, hT, hA, ?_⟩
  intro n1 n2 n3 n4 hb
  rw [hT, hA]
  exact deriveValues_sum snap n1 n2 n3 n4 hb

/-- Witness for C2's amended invariant at the initial state (reachable by the
empty mutation sequence). -/
theorem reachable_sum_invariant_witness :
    ∃ snap : Snapshot,
      initialState.totalCycleTime = (deriveValues snap).totalCycleTime ∧
      initialState.adjustedPhases = (deriveValues snap).adjustedPhases ∧
      (0 ≤ (resolvePattern snap).phases.inhale →
        0 ≤ (resolvePattern snap).phases.holdIn →
        0 ≤ (resolvePattern snap).phases.exhale →
        0 ≤ (resolvePattern snap).phases.holdOut →
        0 < baseTotalOf (resolvePattern snap) →
        sumPhases initialState.adjustedPhases = initialState.totalCycleTime) :=
  reachable_sum_invariant initialState ⟨[], rfl⟩

/-- Counterexample to C2 as stated: zero the inhale and exhale drafts and
save; the custom pattern's base total is 0, so every adjusted phase is 0 and
their sum is 0, while `totalCycleTime` sits at its 500ms floor. -/
theorem sum_invariant_counterexample :
    sumPhases (run [Action.updateDraftPhase .inhale 0, Action.updateDraftPhase .exhale 0,
      Action.saveSettings]).adjustedPhases = 0 ∧
    (run [Action.updateDraftPhase .inhale 0, Action.updateDraftPhase .exhale 0,
      Action.saveSettings]).totalCycleTime = 500 := by
  norm_num [run, step, saveSettings, updateDraftPhase, applyDerived, deriveValues,
    toSnapshot, resolvePattern, lookupPattern, BREATHING_PATTERNS, DEFAULT_PATTERN_KEY,
    baseTotalOf, coherent, initialState, getInitialBaseState, Phases.set, sumPhases,
    max_def, min_def]

/-- C3: a tick taken while playing with total `T > 0`, local elapsed time
`e ∈ [0, T)` and clamped delta `d` wraps the time to `(e + d) mod T`
(which lies in `[0, T)`), writes it to `currentTime`, and increments the
cycle count by exactly `floor((e + d) / T)`; the phase then becomes the one
derived at the wrapped time, or `inhale` at a pure cycle boundary. -/
theorem tick_cycle_spec (timestamp last : ℚ) (ts : TimerState) (store : BreathingState)
    (hp : store.isPlaying = true) (hl : ts.lastTimestamp = some last)
    (hT : 0 < ts.total) (h0 : 0 ≤ ts.time) (h1 : ts.time < ts.total) :
    (tick timestamp ts store).1.time =
      ts.time + (if 0 < timestamp - last then timestamp - last else 0) -
        ts.total *
          ⌊(ts.time + (if 0 < timestamp - last then timestamp - last else 0)) / ts.total⌋ ∧
    0 ≤ (tick timestamp ts store).1.time ∧
    (tick timestamp ts store).1.time < ts.total ∧
    (tick timestamp ts store).2.currentTime = (tick timestamp ts store).1.time ∧
    (tick timestamp ts store).2.cycleCount =
      store.cycleCount +
        ((⌊(ts.time + (if 0 < timestamp - last then timestamp - last else 0)) /
            ts.total⌋).toNat : ℤ) ∧
    (tick timestamp ts store).2.currentPhase =
      (if store.currentPhase ≠ (getPhaseInfo (tick timestamp ts store).1.time ts.phases).phase
       then (getPhaseInfo (tick timestamp ts store).1.time ts.phases).phase
       else if 0 < (⌊(ts.time + (if 0 < timestamp - last then timestamp - last else 0)) /
            ts.total⌋).toNat
       then BreathPhase.inhale else store.currentPhase) := by
  have key := tick_playing timestamp last _ _ ts store hp hl hT h0 rfl rfl
  rw [key]
  dsimp only
  have hlow := Int.sub_floor_div_mul_nonneg
    (ts.time + (if 0 < timestamp - last then timestamp - last else 0)) hT
  have hhigh := Int.sub_floor_div_mul_lt
    (ts.time + (if 0 < timestamp - last then timestamp - last else 0)) hT
  refine ⟨by ring, by linarith, by linarith, rfl, rfl, rfl⟩

/-- Witness for C3 on Scenario B: box pattern, freshly started, one tick of
16000ms completes exactly one cycle: `cycleCount` goes from 1 to 2, the time
wraps to 0, and the phase is `inhale`. -/
theorem tick_cycle_spec_witness :
    (tick 16000 ⟨0, 16000, ⟨4000, 4000, 4000, 4000⟩, some 0⟩
      (run [Action.selectPattern "box", Action.play])).2.cycleCount = 2 ∧
    (tick 16000 ⟨0, 16000, ⟨4000, 4000, 4000, 4000⟩, some 0⟩
      (run [Action.selectPattern "box", Action.play])).1.time = 0 ∧
    (tick 16000 ⟨0, 16000, ⟨4000, 4000, 4000, 4000⟩, some 0⟩
      (run [Action.selectPattern "box", Action.play])).2.currentTime = 0 ∧
    (tick 16000 ⟨0, 16000, ⟨4000, 4000, 4000, 4000⟩, some 0⟩
      (run [Action.selectPattern "box", Action.play])).2.currentPhase =
        BreathPhase.inhale := by
  have h := tick_cycle_spec 16000 0 ⟨0, 16000, ⟨4000, 4000, 4000, 4000⟩, some 0⟩
    (run [Action.selectPattern "box", Action.play]) rfl rfl (by norm_num) (by norm_num)
    (by norm_num)
  obtain ⟨e1, e2, e3, e4, e5, e6⟩ := h
  have hc : (run [Action.selectPattern "box", Action.play]).cycleCount = 1 := rfl
  have hph : (run [Action.selectPattern "box", Action.play]).currentPhase =
      BreathPhase.inhale := rfl
  norm_num at e1
  norm_num at e5
  rw [hc] at e5
  norm_num at e5
  rw [hph, e1] at e6
  have hgp : (getPhaseInfo 0 ⟨4000, 4000, 4000, 4000⟩).phase = BreathPhase.inhale := by
    norm_num [getPhaseInfo, phaseLoop, PHASE_SEQUENCE, Phases.get]
  rw [hgp] at e6
  norm_num at e6
  rw [e1] at e4
  exact ⟨e5, e1, e4, e6⟩

/-- C4 (amended): every tick leaves `sessionTime` and `cycleCount`
non-decreasing, whatever timestamp the driver delivers; and a tick whose
timestamp does not exceed the recorded one is clamped to a zero delta: the
local time, `currentTime`, `sessionTime` and `cycleCount` are all unchanged
and the last timestamp still becomes the new one.  The one field that can
still move is `currentPhase`: the tick re-derives the phase at the unchanged
time and corrects the store if they disagree (the claim's assertion that
`currentPhase` never changes fails in exactly that case). -/
theorem tick_zero_delta_spec :
    (∀ (timestamp : ℚ) (ts : TimerState) (store : BreathingState),
        store.sessionTime ≤ (tick timestamp ts store).2.sessionTime ∧
        store.cycleCount ≤ (tick timestamp ts store).2.cycleCount) ∧
    (∀ (timestamp last : ℚ) (ts : TimerState) (store : BreathingState),
        store.isPlaying = true → ts.lastTimestamp = some last → timestamp ≤ last →
        0 ≤ ts.time → ts.time < ts.total → store.currentTime = ts.time →
        (tick timestamp ts store).1.time = ts.time ∧
        (tick timestamp ts store).1.lastTimestamp = some timestamp ∧
        (tick timestamp ts store).2.currentTime = store.currentTime ∧
        (tick timestamp ts store).2.sessionTime = store.sessionTime ∧
        (tick timestamp ts store).2.cycleCount = store.cycleCount ∧
        (tick timestamp ts store).2.currentPhase =
          (if store.currentPhase ≠ (getPhaseInfo ts.time ts.phases).phase
           then (getPhaseInfo ts.time ts.phases).phase else store.currentPhase)) := by
  constructor
  · intro timestamp ts store
    unfold tick
    split
    · exact ⟨le_refl _, le_refl _⟩
    · split
      · exact ⟨le_refl _, le_refl _⟩
      · simp only [setCurrentTime, updateSessionTime, setCurrentPhase, iterate_incrementCycle]
        split_ifs <;> constructor <;> (dsimp only; first | linarith | omega)
  · intro timestamp last ts store hp hl hts h0 h1 hsync
    have hT : 0 < ts.total := lt_of_le_of_lt h0 h1
    have hdelta : (0 : ℚ) = if 0 < timestamp - last then timestamp - last else 0 := by
      rw [if_neg (not_lt.mpr (by linarith))]
    have key := tick_playing timestamp last 0 ts.time ts store hp hl hT h0 hdelta (by ring)
    have hfl : ⌊ts.time / ts.total⌋ = 0 := by
      refine Int.floor_eq_zero_iff.mpr ?_
      constructor
      · exact div_nonneg h0 hT.le
      · exact (div_lt_one hT).mpr h1
    rw [key]
    dsimp only
    rw [hfl]
    norm_num
    exact hsync.symm

/-- Witness for C4's amended zero-delta tick: playing the box pattern at
elapsed time 1000 with recorded timestamp 1000, a tick stamped 500 (in the
past) changes none of the time fields and only records the new timestamp. -/
theorem tick_zero_delta_spec_witness :
    (tick 500 ⟨1000, 16000, ⟨4000, 4000, 4000, 4000⟩, some 1000⟩
      (run [Action.selectPattern "box", Action.play, Action.setCurrentTime 1000])).1.time =
        1000 ∧
    (tick 500 ⟨1000, 16000, ⟨4000, 4000, 4000, 4000⟩, some 1000⟩
      (run [Action.selectPattern "box", Action.play,
        Action.setCurrentTime 1000])).1.lastTimestamp = some 500 ∧
    (tick 500 ⟨1000, 16000, ⟨4000, 4000, 4000, 4000⟩, some 1000⟩
      (run [Action.selectPattern "box", Action.play,
        Action.setCurrentTime 1000])).2.currentTime =
      (run [Action.selectPattern "box", Action.play,
        Action.setCurrentTime 1000]).currentTime ∧
    (tick 500 ⟨1000, 16000, ⟨4000, 4000, 4000, 4000⟩, some 1000⟩
      (run [Action.selectPattern "box", Action.play,
        Action.setCurrentTime 1000])).2.sessionTime =
      (run [Action.selectPattern "box", Action.play,
        Action.setCurrentTime 1000]).sessionTime ∧
    (tick 500 ⟨1000, 16000, ⟨4000, 4000, 4000, 4000⟩, some 1000⟩
      (run [Action.selectPattern "box", Action.play,
        Action.setCurrentTime 1000])).2.cycleCount =
      (run [Action.selectPattern "box", Action.play,
        Action.setCurrentTime 1000]).cycleCount ∧
    (tick 500 ⟨1000, 16000, ⟨4000, 4000, 4000, 4000⟩, some 1000⟩
      (run [Action.selectPattern "box", Action.play,
        Action.setCurrentTime 1000])).2.currentPhase =
      (if (run [Action.selectPattern "box", Action.play,
            Action.setCurrentTime 1000]).currentPhase ≠
          (getPhaseInfo 1000 ⟨4000, 4000, 4000, 4000⟩).phase
       then (getPhaseInfo 1000 ⟨4000, 4000, 4000, 4000⟩).phase
       else (run [Action.selectPattern "box", Action.play,
        Action.setCurrentTime 1000]).currentPhase) :=
  tick_zero_delta_spec.2 500 1000 ⟨1000, 16000, ⟨4000, 4000, 4000, 4000⟩, some 1000⟩
    (run [Action.selectPattern "box", Action.play, Action.setCurrentTime 1000])
    rfl rfl (by norm_num) (by norm_num) (by norm_num) rfl

/-- Counterexample to C4 as stated: a playing store on a custom pattern whose
inhale duration is 0 has `currentPhase = 'inhale'` right after `play`; a tick
with a duplicate timestamp (delta 0) re-derives the phase at time 0, which is
`exhale`, and writes it — `currentPhase` changes although no time passed. -/
theorem tick_phase_correction_counterexample :
    (tick 1000 ⟨0, 5000, ⟨0, 0, 5000, 0⟩, some 1000⟩
      (run [Action.updateDraftPhase .inhale 0, Action.saveSettings,
        Action.play])).2.currentPhase ≠
    (run [Action.updateDraftPhase .inhale 0, Action.saveSettings,
      Action.play]).currentPhase := by
  have hp : (run [Action.updateDraftPhase .inhale 0, Action.saveSettings,
      Action.play]).isPlaying = true := rfl
  have hph : (run [Action.updateDraftPhase .inhale 0, Action.saveSettings,
      Action.play]).currentPhase = BreathPhase.inhale := rfl
  have key := tick_playing 1000 1000 0 0 ⟨0, 5000, ⟨0, 0, 5000, 0⟩, some 1000⟩
    (run [Action.updateDraftPhase .inhale 0, Action.saveSettings, Action.play])
    hp rfl (by norm_num) (by norm_num) (by norm_num) (by norm_num)
  rw [key, hph]
  dsimp only
  have hgp : (getPhaseInfo (0 - 5000 * ⌊(0 : ℚ) / 5000⌋) ⟨0, 0, 5000, 0⟩).phase =
      BreathPhase.exhale := by
    norm_num [getPhaseInfo, phaseLoop, PHASE_SEQUENCE, Phases.get]
  rw [hgp]
  norm_num <;> decide

end Breathwork
